import Mathlib

/-!
Verification development for `toml_edit`'s document module
(`src/crates/toml_edit/src/document.rs`): the format-preserving
document model with its immutable (`ImDocument`) and mutable (`Document`)
forms and the one-way "despan" detachment that converts span references
into owned text.

Modelling conventions:
* The collaborator types `Item`, `Table`, `RawString` and the external
  parser/renderer live outside the provided source file; they are modelled
  from the spec (each such definition's doc comment starts with
  `Modelled from the spec:`).
* The ownership parameter `S` of `ImDocument<S>` is instantiated at
  `String`; `AsRef<str>` and `Into<String>` act as the identity there.
* Offsets are character offsets into the source text.
* A Rust panic (`expect` / `unwrap`) is modelled by an `Option` result:
  `none` is the panic branch. Safety claims prove those branches
  unreachable from the public construction paths.
-/

set_option autoImplicit false

namespace TomlEdit

/-- Modelled from the spec: span text (the `RawString` collaborator, not under
`src/`) — "text represented either as a byte-range reference into a source
buffer or as an owned string; supports detachment (reference → owned copy)".
`spanned start stop` references the half-open character range
`[start, stop)` of the source buffer; `owned s` is self-contained text.
The empty default is the owned empty string. -/
inductive RawString where
  | spanned (start stop : Nat)
  | owned (s : String)

instance : Inhabited RawString := ⟨.owned ""⟩

/-- Character-range slice of a string, used to resolve a span against the
source buffer. -/
def sliceStr (s : String) (a b : Nat) : String :=
  ⟨(s.data.drop a).take (b - a)⟩

/-- Modelled from the spec: `RawString::despan` — "a detach operation that
resolves a reference against a given buffer and replaces it with an owned
copy"; owned text is left unchanged. -/
def RawString.despan (input : String) : RawString → RawString
  | .spanned a b => .owned (sliceStr input a b)
  | .owned s => .owned s

/-- `true` iff the span text is self-contained (no reference into a buffer). -/
def RawString.isOwned : RawString → Bool
  | .spanned _ _ => false
  | .owned _ => true

/-- Modelled from the spec: the text a span holds once detached; a still
spanned reference has no resolvable text without its buffer. Used by the
rendering model. -/
def RawString.asText : RawString → String
  | .spanned _ _ => ""
  | .owned s => s

mutual
/-- Modelled from the spec: the element tree (the `Item` collaborator, not
under `src/`) — "an external tagged structure (table / scalar value / nested
containers) whose leaves hold span text". `Item.none` is the empty item,
`value` a scalar leaf carrying its span text, `table` a nested table. -/
inductive Item where
  | none
  | value (v : RawString)
  | table (t : Table)

/-- Modelled from the spec: "Table: an ordered, key-unique mapping from names
to elements"; it also records its position in the document (`pos`). -/
inductive Table where
  | mk (pos : Option Nat) (entries : Entries)

/-- The ordered entry list of a table: key/element pairs in source insertion
order. -/
inductive Entries where
  | nil
  | cons (key : String) (val : Item) (rest : Entries)
end

/-- The document position of a table. -/
def Table.pos : Table → Option Nat
  | .mk p _ => p

/-- The ordered entries of a table. -/
def Table.entries : Table → Entries
  | .mk _ es => es

/-- Modelled from the spec: `Table::with_pos` — an empty table positioned at
the given document offset. -/
def Table.with_pos (pos : Option Nat) : Table :=
  .mk pos .nil

/-- View the ordered entries as a plain association list (the specification
view of iteration). -/
def Entries.toList : Entries → List (String × Item)
  | .nil => []
  | .cons k i rest => (k, i) :: rest.toList

/-- Modelled from the spec: `Table::iter` — "a lazy, finite, restartable
sequence of top-level key/value pairs in source insertion order". -/
def Table.iter (t : Table) : List (String × Item) :=
  t.entries.toList

/-- `Item::as_table`: the checked projection to the table variant; `none`
models the non-table case. -/
def Item.as_table : Item → Option Table
  | .table t => some t
  | _ => Option.none

/-- `Item::as_table_mut`: the mutable checked projection; in this pure model
it performs the same match as `Item.as_table`. -/
def Item.as_table_mut : Item → Option Table
  | .table t => some t
  | _ => Option.none

mutual
/-- Modelled from the spec: `Item::despan` — one pass of the detachment walk
over an element: scalar leaves detach their span text, tables recurse into
every entry, the empty item is unchanged. -/
def Item.despan (input : String) : Item → Item
  | .none => .none
  | .value v => .value (v.despan input)
  | .table t => .table (t.despan input)

/-- Modelled from the spec: `Table::despan` — detaches every entry of the
table against the buffer, keeping position, keys and order. -/
def Table.despan (input : String) : Table → Table
  | .mk pos es => .mk pos (es.despan input)

/-- Detachment over an entry list: every element is despanned in place. -/
def Entries.despan (input : String) : Entries → Entries
  | .nil => .nil
  | .cons k i rest => .cons k (i.despan input) (rest.despan input)
end

/-- Whether an entry list already binds a key (used for the key-unique
invariant of tables). -/
def Entries.hasKey (k : String) : Entries → Bool
  | .nil => false
  | .cons k2 _ rest => k == k2 || rest.hasKey k

/-- Parse diagnostics: a single error kind carrying location/context
(`TomlError`). -/
structure TomlError where
  message : String
  offset : Nat

/-- `ImDocument<S>` at `S = String`: root item, trailing span text, and the
raw source text. -/
structure ImDocument where
  root : Item
  trailing : RawString
  raw : String

/-- `Document`: root item, trailing span text, and the optional retained
owned copy of the source. -/
structure Document where
  root : Item
  trailing : RawString
  raw : Option String

/-- Horizontal whitespace. -/
def isWs (c : Char) : Bool :=
  c == ' ' || c == '\t'

/-- Trim horizontal whitespace from both ends of a character list. -/
def trimChars (l : List Char) : List Char :=
  ((l.dropWhile isWs).reverse.dropWhile isWs).reverse

/-- Split a character list into lines at newline characters. -/
def splitLines : List Char → List (List Char)
  | [] => [[]]
  | c :: rest =>
    if c = '\n' then [] :: splitLines rest
    else
      match splitLines rest with
      | [] => [[c]]
      | l :: ls => (c :: l) :: ls

/-- Pair each line with the character offset at which it starts. -/
def withOffsets : List (List Char) → Nat → List (Nat × List Char)
  | [], _ => []
  | l :: rest, start => (start, l) :: withOffsets rest (start + l.length + 1)

/-- A line holding no element: blank or a comment. -/
def isBlankOrComment (line : List Char) : Bool :=
  match line.dropWhile isWs with
  | [] => true
  | c :: _ => c == '#'

/-- Split a character list at its first `=`, when present. -/
def splitEq : List Char → Option (List Char × List Char)
  | [] => Option.none
  | c :: rest =>
    if c = '=' then some ([], rest)
    else (splitEq rest).map fun p => (c :: p.1, p.2)

/-- Parse one `key = value` line starting at character offset `off`,
returning the key text and the value's span into the source buffer. -/
def parseKeyValue (off : Nat) (line : List Char) : Option (String × RawString) :=
  match splitEq line with
  | Option.none => Option.none
  | some (kRaw, vRaw) =>
    let k := trimChars kRaw
    let vCore := trimChars vRaw
    if k = [] ∨ vCore = [] then Option.none
    else
      let vstart := off + kRaw.length + 1 + (vRaw.takeWhile isWs).length
      some (⟨k⟩, .spanned vstart (vstart + vCore.length))

/-- Parse the offset-annotated lines of a document into the root table's
entries. `tstart` is the offset just past the last element seen so far; the
returned offset is where the trailing whitespace/comment span starts. Fails
on a line that is neither blank, a comment, nor `key = value`, and on a
duplicate key. -/
def parseEntries : List (Nat × List Char) → Nat → Except TomlError (Entries × Nat)
  | [], tstart => .ok (.nil, tstart)
  | (off, line) :: rest, tstart =>
    if isBlankOrComment line then parseEntries rest tstart
    else
      match parseKeyValue off line with
      | Option.none => .error ⟨"expected a key = value line", off⟩
      | some (k, v) =>
        match parseEntries rest (off + line.length + 1) with
        | .error e => .error e
        | .ok (es, tstart2) =>
          if es.hasKey k then .error ⟨"duplicate key", off⟩
          else .ok (.cons k (.value v) es, tstart2)

/-- Modelled from the spec: the external grammar engine
(`crate::parser::parse_document`, not under `src/`) — "returns a fully-built
element tree whose leaf span text reference byte ranges within `source`",
root always a table, the trailing whitespace/comment span captured after the
last element, never a partially valid document on failure. The model grammar
is the line fragment of the format: blank lines, `#` comment lines, and
single-line `key = value` bindings with unique keys; everything after the
last binding is trailing text. -/
def parse_document (raw : String) : Except TomlError ImDocument :=
  match parseEntries (withOffsets (splitLines raw.data) 0) 0 with
  | .error e => .error e
  | .ok (es, tstart) =>
    .ok { root := .table (.mk (some 0) es),
          trailing := .spanned tstart raw.data.length,
          raw := raw }

/-- `ImDocument::parse`: delegates entirely to the external parsing engine. -/
def ImDocument.parse (raw : String) : Except TomlError ImDocument :=
  parse_document raw

/-- `ImDocument::default`: the empty document — root is an empty table
positioned at offset 0, no trailing text, empty raw source. -/
def ImDocument.defaultDoc : ImDocument :=
  { root := .table (Table.with_pos (some 0)), trailing := default, raw := "" }

/-- `ImDocument::new`: creates an empty document via the default. -/
def ImDocument.new : ImDocument :=
  ImDocument.defaultDoc

/-- `ImDocument::as_item`: reference to the root item. -/
def ImDocument.as_item (d : ImDocument) : Item :=
  d.root

/-- `ImDocument::as_table`: reference to the root table; the `expect` panic
("root should always be a table") is modelled by `none`. -/
def ImDocument.as_table (d : ImDocument) : Option Table :=
  d.root.as_table

/-- `ImDocument::iter`: iterator over the root table (`self.as_table().iter()`);
the panic branch of `as_table` is modelled by the empty sequence. -/
def ImDocument.iter (d : ImDocument) : List (String × Item) :=
  match d.as_table with
  | some t => t.iter
  | Option.none => []

/-- `ImDocument::from_str` (`FromStr`): parses from a string slice by
delegating to `parse` on the owned copy. -/
def ImDocument.from_str (s : String) : Except TomlError ImDocument :=
  ImDocument.parse s

/-- `Deref for ImDocument`: dereferencing yields `self.as_table()`. -/
def ImDocument.deref (d : ImDocument) : Option Table :=
  d.as_table

/-- `ImDocument::into_spanned_document`: moves root and trailing unchanged
into a mutable document whose retained raw buffer is the owned source. -/
def ImDocument.into_spanned_document (d : ImDocument) : Document :=
  { root := d.root, trailing := d.trailing, raw := some d.raw }

/-- `Document::despan`: detaches the root and the trailing span against the
retained raw buffer. The source `unwrap`s the buffer — running it on a
document without one panics, modelled here by `none`. -/
def Document.despan (d : Document) : Option Document :=
  match d.raw with
  | some buf =>
    some { root := d.root.despan buf, trailing := d.trailing.despan buf, raw := d.raw }
  | Option.none => Option.none

/-- `ImDocument::into_mut`: consumes the immutable document, producing the
spanned mutable document and despanning it. The unreachable panic branch of
`despan` falls back to the undetached document. -/
def ImDocument.into_mut (d : ImDocument) : Document :=
  (d.into_spanned_document.despan).getD d.into_spanned_document

/-- `Document::default`: the empty mutable document — root is an empty table
positioned at offset 0, default (empty) trailing, no retained raw buffer. -/
def Document.defaultDoc : Document :=
  { root := .table (Table.with_pos (some 0)), trailing := default, raw := Option.none }

/-- `Document::new`: creates an empty document via the default. -/
def Document.new : Document :=
  Document.defaultDoc

/-- `Document::as_item`: reference to the root item. -/
def Document.as_item (d : Document) : Item :=
  d.root

/-- `Document::as_item_mut`: mutable reference to the root item; in this pure
model the same projection as `as_item`. -/
def Document.as_item_mut (d : Document) : Item :=
  d.root

/-- `Document::as_table`: reference to the root table; the `expect` panic is
modelled by `none`. -/
def Document.as_table (d : Document) : Option Table :=
  d.root.as_table

/-- `Document::as_table_mut`: mutable reference to the root table via
`Item::as_table_mut`; the `expect` panic is modelled by `none`. -/
def Document.as_table_mut (d : Document) : Option Table :=
  d.root.as_table_mut

/-- `Document::iter`: iterator over the root table (`self.as_table().iter()`);
the panic branch of `as_table` is modelled by the empty sequence. -/
def Document.iter (d : Document) : List (String × Item) :=
  match d.as_table with
  | some t => t.iter
  | Option.none => []

/-- `Document::set_trailing`: replaces the trailing span with the given value
(`impl Into<RawString>` is the identity at `RawString` itself). -/
def Document.set_trailing (d : Document) (trailing : RawString) : Document :=
  { d with trailing := trailing }

/-- `Document::from_str` (`FromStr`): parses into an immutable document and
converts it with `into_mut`, propagating the parse error unchanged. -/
def Document.from_str (s : String) : Except TomlError Document :=
  match ImDocument.from_str s with
  | .error e => .error e
  | .ok im => .ok im.into_mut

/-- `Deref for Document`: dereferencing yields `self.as_table()`. -/
def Document.deref (d : Document) : Option Table :=
  d.as_table

/-- `DerefMut for Document`: mutable dereferencing yields
`self.as_table_mut()`. -/
def Document.deref_mut (d : Document) : Option Table :=
  d.as_table_mut

/-- `From<Table> for Document`: wraps the supplied table as the root item and
fills the remaining fields from `Document`'s default (empty trailing, no
retained raw buffer). -/
def Document.fromTable (root : Table) : Document :=
  { root := .table root,
    trailing := Document.defaultDoc.trailing,
    raw := Document.defaultDoc.raw }

/-- Modelled from the spec: the scalar text a leaf contributes when rendered
(non-scalar items contribute through their own entries and render empty
here). -/
def Item.renderLeaf : Item → String
  | .value v => v.asText
  | _ => ""

/-- Modelled from the spec: rendering of the root table's entries by the
external text-rendering engine — each `key = value` binding on its own
line, in insertion order. -/
def Entries.render : Entries → String
  | .nil => ""
  | .cons k i rest => k ++ " = " ++ i.renderLeaf ++ "\n" ++ rest.render

/-- Modelled from the spec: the display/serialization boundary (`to_string`,
not under `src/`) — renders the root table's entries followed by the
trailing span text. -/
def Document.to_string (d : Document) : String :=
  (match d.root.as_table with
   | some t => t.entries.render
   | Option.none => "") ++ d.trailing.asText

mutual
/-- Erase all leaf text from an element, keeping only the tree shape: the
constructor, positions, keys and their order. Two elements with equal
erasures differ at most in the representation of their leaf text. -/
def Item.eraseText : Item → Item
  | .none => .none
  | .value _ => .value (.owned "")
  | .table t => .table t.eraseText

/-- Shape of a table: erase the leaf text of every entry. -/
def Table.eraseText : Table → Table
  | .mk pos es => .mk pos es.eraseText

/-- Shape of an entry list: erase the leaf text of every element. -/
def Entries.eraseText : Entries → Entries
  | .nil => .nil
  | .cons k i rest => .cons k i.eraseText rest.eraseText
end

mutual
/-- All leaf text of the element is owned: no remaining reference into a
source buffer. -/
def Item.spanFree : Item → Bool
  | .none => true
  | .value v => v.isOwned
  | .table t => t.spanFree

/-- All leaf text of the table is owned. -/
def Table.spanFree : Table → Bool
  | .mk _ es => es.spanFree

/-- All leaf text of the entry list is owned. -/
def Entries.spanFree : Entries → Bool
  | .nil => true
  | .cons _ i rest => i.spanFree && rest.spanFree
end

/-- Modelled from the spec: the two-step path — "parse into an immutable
document, then convert" — that `Document::from_str` is specified to be
equivalent to. -/
def Document.from_str_twostep (s : String) : Except TomlError Document :=
  (ImDocument.parse s).map ImDocument.into_mut

/-- The immutable document produced by parsing the empty source text. -/
def emptyParsedDoc : ImDocument :=
  { root := .table (.mk (some 0) .nil), trailing := .spanned 0 0, raw := "" }

/-- The mutable document produced by re-parsing the rendering of the default
document. -/
def roundtripDoc : Document :=
  { root := .table (.mk (some 0) .nil), trailing := .owned "", raw := some "" }

end TomlEdit

namespace TomlEdit

theorem RawString.isOwned_despan (input : String) (v : RawString) :
    (v.despan input).isOwned = true := by
  cases v <;> rfl

mutual
theorem spanFree_despan_item (input : String) : (i : Item) → (i.despan input).spanFree = true
  | .none => rfl
  | .value v => RawString.isOwned_despan input v
  | .table t => spanFree_despan_table input t

theorem spanFree_despan_table (input : String) : (t : Table) → (t.despan input).spanFree = true
  | .mk _pos es => spanFree_despan_entries input es

theorem spanFree_despan_entries (input : String) : (es : Entries) → (es.despan input).spanFree = true
  | .nil => rfl
  | .cons k i rest => by
    simp [Entries.despan, Entries.spanFree, spanFree_despan_item input i,
      spanFree_despan_entries input rest]
end

mutual
theorem eraseText_despan_item (input : String) : (i : Item) → (i.despan input).eraseText = i.eraseText
  | .none => rfl
  | .value v => by cases v <;> rfl
  | .table t => congrArg Item.table (eraseText_despan_table input t)

theorem eraseText_despan_table (input : String) : (t : Table) → (t.despan input).eraseText = t.eraseText
  | .mk pos es => congrArg (Table.mk pos) (eraseText_despan_entries input es)

theorem eraseText_despan_entries (input : String) : (es : Entries) → (es.despan input).eraseText = es.eraseText
  | .nil => rfl
  | .cons k i rest => by
    simp [Entries.despan, Entries.eraseText, eraseText_despan_item input i,
      eraseText_despan_entries input rest]
end

theorem Entries.toList_despan_keys (input : String) : (es : Entries) →
    ((es.despan input).toList).map Prod.fst = es.toList.map Prod.fst
  | .nil => rfl
  | .cons k i rest => by
    simp [Entries.despan, Entries.toList, Entries.toList_despan_keys input rest]

theorem parse_ok_shape (S : String) (d : ImDocument)
    (h : ImDocument.parse S = .ok d) :
    ∃ es tstart,
      d = ⟨.table (.mk (some 0) es), .spanned tstart S.data.length, S⟩ := by
  unfold ImDocument.parse parse_document at h
  split at h
  · exact Except.noConfusion h
  · injection h with h2
    exact ⟨_, _, h2.symm⟩

end TomlEdit

namespace TomlEdit

/-- C1: for every source text S on which `ImDocument::parse` succeeds, `raw()`
of the resulting immutable document is byte-identical to S. -/
theorem parse_raw_identity (S : String) (d : ImDocument)
    (h : ImDocument.parse S = .ok d) : d.raw = S := by
  obtain ⟨es, tstart, rfl⟩ := parse_ok_shape S d h
  rfl

/-- Witness for C1 at the empty source text. -/
theorem parse_raw_identity_witness :
    ImDocument.parse "" = .ok emptyParsedDoc ∧ emptyParsedDoc.raw = "" :=
  ⟨rfl, parse_raw_identity "" emptyParsedDoc rfl⟩

/-- C2: converting an immutable document with `into_mut` (which runs despan)
preserves the top-level key sequence of iteration, preserves the whole tree
shape, ordering and key identity (equal erasures), and leaves only
self-contained owned leaf text in root and trailing span. -/
theorem into_mut_preserves_structure (d : ImDocument) :
    (d.into_mut).iter.map Prod.fst = d.iter.map Prod.fst
    ∧ (d.into_mut).root.eraseText = d.root.eraseText
    ∧ (d.into_mut).root.spanFree = true
    ∧ (d.into_mut).trailing.isOwned = true := by
  obtain ⟨root, trailing, raw⟩ := d
  refine ⟨?_, eraseText_despan_item raw root, spanFree_despan_item raw root,
    RawString.isOwned_despan raw trailing⟩
  cases root with
  | none => rfl
  | value v => rfl
  | table t =>
    cases t with
    | mk pos es =>
      simpa [ImDocument.into_mut, ImDocument.into_spanned_document, Document.despan,
        Document.iter, ImDocument.iter, Document.as_table, ImDocument.as_table,
        Item.despan, Table.despan, Item.as_table, Table.iter, Table.entries]
        using Entries.toList_despan_keys raw es

/-- C3: the spanned document built inside `into_mut` always carries the
source buffer (`raw = some source`), so `despan` succeeds there — it never
hits its unwrap panic — and `into_mut` is exactly its result. -/
theorem into_mut_despan_safe (d : ImDocument) :
    (d.into_spanned_document).raw = some d.raw
    ∧ (d.into_spanned_document).despan = some d.into_mut :=
  ⟨rfl, rfl⟩

/-- C4: every public construction path (new/default of both forms, parse,
from_str, From Table, into_mut) yields a root that is the table variant, so
`as_table` and `as_table_mut` never hit their panic branch. -/
theorem root_always_table :
    (ImDocument.new.as_table).isSome = true
    ∧ (ImDocument.defaultDoc.as_table).isSome = true
    ∧ (Document.new.as_table).isSome = true
    ∧ (Document.defaultDoc.as_table).isSome = true
    ∧ (Document.defaultDoc.as_table_mut).isSome = true
    ∧ (∀ t : Table, ((Document.fromTable t).as_table).isSome = true
        ∧ ((Document.fromTable t).as_table_mut).isSome = true)
    ∧ (∀ S d, ImDocument.parse S = .ok d →
        (d.as_table).isSome = true
        ∧ ((d.into_mut).as_table).isSome = true
        ∧ ((d.into_mut).as_table_mut).isSome = true)
    ∧ (∀ s d, Document.from_str s = .ok d →
        (d.as_table).isSome = true ∧ (d.as_table_mut).isSome = true) := by
  refine ⟨rfl, rfl, rfl, rfl, rfl, fun t => ⟨rfl, rfl⟩, ?_, ?_⟩
  · intro S d h
    obtain ⟨es, tstart, rfl⟩ := parse_ok_shape S d h
    exact ⟨rfl, rfl, rfl⟩
  · intro s d h
    unfold Document.from_str ImDocument.from_str at h
    split at h
    · exact Except.noConfusion h
    · rename_i im heq
      injection h with h2
      subst h2
      obtain ⟨es, tstart, rfl⟩ := parse_ok_shape s im heq
      exact ⟨rfl, rfl⟩

/-- Witness for C4: the parse and into_mut paths at the empty source text. -/
theorem root_always_table_witness :
    ImDocument.parse "" = .ok emptyParsedDoc
    ∧ (emptyParsedDoc.as_table).isSome = true
    ∧ ((emptyParsedDoc.into_mut).as_table).isSome = true :=
  ⟨rfl, (root_always_table.2.2.2.2.2.2.1 "" emptyParsedDoc rfl).1,
    (root_always_table.2.2.2.2.2.2.1 "" emptyParsedDoc rfl).2.1⟩

/-- C5: `Document::from_str` equals the two-step path (parse into an
immutable document, then convert with `into_mut`): it propagates the same
parse error and never short-circuits the conversion. -/
theorem from_str_equiv_twostep (s : String) :
    Document.from_str s = Document.from_str_twostep s := by
  unfold Document.from_str Document.from_str_twostep ImDocument.from_str
  cases ImDocument.parse s <;> rfl

/-- C6: default-constructed documents of both forms have an empty root table
positioned at offset 0 and empty trailing text; the default immutable
document's raw source is the empty string and the default mutable document
retains no source buffer. -/
theorem default_documents_empty :
    ImDocument.new = ImDocument.defaultDoc
    ∧ ImDocument.defaultDoc.root = .table (Table.with_pos (some 0))
    ∧ ImDocument.defaultDoc.iter = []
    ∧ ImDocument.defaultDoc.trailing = .owned ""
    ∧ ImDocument.defaultDoc.raw = ""
    ∧ Document.new = Document.defaultDoc
    ∧ Document.defaultDoc.root = .table (Table.with_pos (some 0))
    ∧ Document.defaultDoc.iter = []
    ∧ Document.defaultDoc.trailing = .owned ""
    ∧ Document.defaultDoc.raw = Option.none
    ∧ Table.with_pos (some 0) = .mk (some 0) .nil :=
  ⟨rfl, rfl, rfl, rfl, rfl, rfl, rfl, rfl, rfl, rfl, rfl⟩

/-- C7: building a document from a table wraps exactly that table as the
root item, with empty trailing span and no retained source buffer. -/
theorem fromTable_fields (t : Table) :
    (Document.fromTable t).root = .table t
    ∧ (Document.fromTable t).trailing = .owned ""
    ∧ (Document.fromTable t).raw = Option.none :=
  ⟨rfl, rfl, rfl⟩

/-- C8: document access delegates transparently to the root table: `Deref`
(and `DerefMut`) yield exactly `as_table` (`as_table_mut`), and `iter`
yields exactly the root table's iteration, for both document forms. -/
theorem deref_delegates (di : ImDocument) (dm : Document) :
    di.deref = di.as_table
    ∧ dm.deref = dm.as_table
    ∧ dm.deref_mut = dm.as_table_mut
    ∧ (∀ t, di.as_table = some t → di.iter = t.iter)
    ∧ (∀ t, dm.as_table = some t → dm.iter = t.iter) := by
  refine ⟨rfl, rfl, rfl, ?_, ?_⟩
  · intro t h
    simp [ImDocument.iter, h]
  · intro t h
    simp [Document.iter, h]

/-- Witness for C8 at the two default documents. -/
theorem deref_delegates_witness :
    ImDocument.defaultDoc.as_table = some (Table.with_pos (some 0))
    ∧ ImDocument.defaultDoc.iter = (Table.with_pos (some 0)).iter
    ∧ Document.defaultDoc.as_table = some (Table.with_pos (some 0))
    ∧ Document.defaultDoc.iter = (Table.with_pos (some 0)).iter :=
  ⟨rfl, (deref_delegates ImDocument.defaultDoc Document.defaultDoc).2.2.2.1 _ rfl,
    rfl, (deref_delegates ImDocument.defaultDoc Document.defaultDoc).2.2.2.2 _ rfl⟩

/-- C9: rendering the default document and re-parsing it round-trips: the
parse succeeds and yields a document with the same (empty) root table
iteration and the same (empty) trailing span as the default document. -/
theorem default_roundtrip :
    Document.to_string Document.defaultDoc = ""
    ∧ Document.from_str (Document.to_string Document.defaultDoc) = .ok roundtripDoc
    ∧ roundtripDoc.iter = Document.defaultDoc.iter
    ∧ roundtripDoc.trailing = Document.defaultDoc.trailing :=
  ⟨rfl, rfl, rfl, rfl⟩

/-- C10: `set_trailing` changes only the trailing span: afterwards
`trailing` returns exactly the given value while root item and retained raw
buffer are unchanged. -/
theorem set_trailing_frame (d : Document) (t : RawString) :
    (d.set_trailing t).trailing = t
    ∧ (d.set_trailing t).root = d.root
    ∧ (d.set_trailing t).raw = d.raw :=
  ⟨rfl, rfl, rfl⟩

end TomlEdit
